import Mathlib

/-!
Verification development for the kode-agent-sdk agent runtime kernel.

The repository ships the kernel's documentation, examples and integration
tests; the kernel implementation itself is not among the given sources, so
the executable definitions below are modelled from the specification
(`spec.md`) and the type/event reference documents under `src/docs` and
`src/unnamed`, faithfully to their words.  Theorems at the end of the file
settle the frozen claims against these definitions.
-/

/-- Event channels of the three-channel event bus, from `AgentChannel` in
`src/docs/zh-CN/reference/types.md`: `progress`, `control`, `monitor`. -/
inductive Channel
  | progress
  | control
  | monitor
deriving DecidableEq

/-- A position in an agent's event log, from `Bookmark` in the type
reference: a `{seq, timestamp}` pair. -/
structure Bookmark where
  seq : Nat
  timestamp : Nat
deriving DecidableEq

/-- Event envelope, from `AgentEventEnvelope<T>` in
`src/docs/zh-CN/reference/types.md`: a cursor, a bookmark and the event,
tagged with its channel. -/
structure Envelope (α : Type) where
  cursor : Nat
  bookmark : Bookmark
  channel : Channel
  event : α
deriving DecidableEq

/-- Content blocks of a message, from `ContentBlock` in
`src/docs/zh-CN/reference/types.md` (restricted to the variants the claims
are about). -/
inductive ContentBlock
  | text (t : String)
  | tool_use (id : String) (name : String) (input : String)
  | tool_result (tool_use_id : String) (content : String) (is_error : Bool)
deriving DecidableEq

/-- Message roles (`user` | `assistant` | `system`). -/
inductive Role
  | user
  | assistant
  | system
deriving DecidableEq

/-- A message: a role plus an ordered list of content blocks. -/
structure Message where
  role : Role
  content : List ContentBlock
deriving DecidableEq

/-! ## Permission manager (claim C1) -/

/-- Permission decision outcome, from §4.3 of the spec:
`allow`, `deny(reason)`, `ask`. -/
inductive PermissionOutcome
  | allow
  | deny (reason : String)
  | ask
deriving DecidableEq

/-- Permission mode, from `PermissionDecisionMode` in the type reference:
`auto`, `approval`, `readonly`, or a named custom mode supplied by the
embedder (modelled as the embedder-supplied rule from tool name and
read-only flag to an outcome). -/
inductive PermissionMode
  | auto
  | approval
  | readonlyMode
  | custom (rule : String → Bool → PermissionOutcome)

/-- Permission configuration, from `PermissionConfig` in
`src/docs/zh-CN/reference/types.md`. -/
structure PermissionConfig where
  mode : PermissionMode
  allowTools : Option (List String)
  denyTools : List String
  requireApprovalTools : List String

/-- Static tool attributes the permission decision consults: the tool name
and its `readonly` flag (§4.5 "Tool attributes"). -/
structure ToolMeta where
  name : String
  readOnly : Bool
deriving DecidableEq

/-- Modelled from the spec (§4.3, PermissionManager — implementation not in
the sources): the mode rule applied when no list decides.  `auto` approves
silently, `approval` requires approval for every tool, `readonly`
auto-approves tools flagged read-only and requires approval otherwise, a
custom mode applies the embedder-supplied rule. -/
def modeRule : PermissionMode → ToolMeta → PermissionOutcome
  | .auto, _ => .allow
  | .approval, _ => .ask
  | .readonlyMode, t => if t.readOnly then .allow else .ask
  | .custom rule, t => rule t.name t.readOnly

/-- Whether the optional `allowTools` whitelist admits a tool name: absent
means everything is admitted. -/
def allowListAdmits (allowTools : Option (List String)) (n : String) : Bool :=
  match allowTools with
  | none => true
  | some l => decide (n ∈ l)

/-- Modelled from the spec (§4.3): the per-tool-call permission decision,
evaluated in the order `denyTools` → `allowTools` → `requireApprovalTools`
→ mode rule. -/
def decidePermission (cfg : PermissionConfig) (t : ToolMeta) : PermissionOutcome :=
  if t.name ∈ cfg.denyTools then
    .deny "tool is on denyTools"
  else if allowListAdmits cfg.allowTools t.name = false then
    .deny "tool is not on allowTools"
  else if t.name ∈ cfg.requireApprovalTools then
    .ask
  else
    modeRule cfg.mode t

/-! ## Tool error taxonomy (claim C3) -/

/-- The five-way tool failure classification, from §4.5 item 5 of the spec
and the table in `src/docs/en/guides/error-handling.md`. -/
inductive ErrorType
  | validation
  | runtime
  | logical
  | aborted
  | exception
deriving DecidableEq

/-- Modelled from the spec (§4.5 item 5): retryability per error type —
`validation` and `aborted` are not retryable; `runtime`, `logical` and
`exception` are. -/
def ErrorType.retryable : ErrorType → Bool
  | .validation => false
  | .aborted => false
  | .runtime => true
  | .logical => true
  | .exception => true

/-- The raw ways a tool invocation can fail, from the "Error Flow" section
of `src/docs/en/guides/error-handling.md`: schema reject, thrown expected
error, a returned `{ok: false}`, timeout/external cancel, uncaught
exception. -/
inductive RawFailure
  | validationReject (msg : String)
  | thrown (msg : String)
  | logicalFail (msg : String)
  | timeoutOrCancel (msg : String)
  | uncaught (msg : String)
deriving DecidableEq

/-- Modelled from the spec (§4.5 item 5): classification of a raw failure
into the five-way taxonomy. -/
def classify : RawFailure → ErrorType
  | .validationReject _ => .validation
  | .thrown _ => .runtime
  | .logicalFail _ => .logical
  | .timeoutOrCancel _ => .aborted
  | .uncaught _ => .exception

/-- The message text carried by a raw failure. -/
def failureMessage : RawFailure → String
  | .validationReject m => m
  | .thrown m => m
  | .logicalFail m => m
  | .timeoutOrCancel m => m
  | .uncaught m => m

/-- The structured failure payload returned to the model, from §4.5 item 5:
`{ok: false, error, errorType, retryable, recommendations[]}`. -/
structure FailurePayload where
  ok : Bool
  error : String
  errorType : ErrorType
  retryable : Bool
  recommendations : List String
deriving DecidableEq

/-- Modelled from the spec (§4.5 item 5): wrap a classified failure into
the result payload the model sees, with `recommendations` derived from the
per-tool-name lookup table (passed in as `table`). -/
def wrapFailure (table : String → ErrorType → List String)
    (toolName msg : String) (e : ErrorType) : FailurePayload :=
  { ok := false
    error := msg
    errorType := e
    retryable := e.retryable
    recommendations := table toolName e }

/-- Modelled from the spec: the full failure path — classify the raw
failure, then wrap it. -/
def handleFailure (table : String → ErrorType → List String)
    (toolName : String) (f : RawFailure) : FailurePayload :=
  wrapFailure table toolName (failureMessage f) (classify f)

/-! ## Runtime state and status (claim C10) -/

/-- The three-valued runtime state, from `AgentRuntimeState` in
`src/docs/zh-CN/reference/types.md`: `READY` (idle), `WORKING`
(processing), `PAUSED` (awaiting a permission decision). -/
inductive AgentRuntimeState
  | READY
  | WORKING
  | PAUSED
deriving DecidableEq

/-- The eight-valued persisted breakpoint, from `BreakpointState` in
`src/docs/zh-CN/reference/types.md`. -/
inductive BreakpointState
  | READY
  | PRE_MODEL
  | STREAMING_MODEL
  | TOOL_PENDING
  | AWAITING_APPROVAL
  | PRE_TOOL
  | TOOL_EXECUTING
  | POST_TOOL
deriving DecidableEq

/-- The result of `status()`, from `AgentStatus` in
`src/docs/zh-CN/reference/types.md`: carries both the runtime state and
the breakpoint. -/
structure AgentStatus where
  agentId : String
  state : AgentRuntimeState
  stepCount : Nat
  lastSfpIndex : Nat
  lastBookmark : Option Bookmark
  cursor : Nat
  breakpoint : BreakpointState
deriving DecidableEq

/-- Modelled from the spec: the in-memory per-agent fields that `status()`
reports; the runtime state and the persisted breakpoint are maintained as
separate fields (the Agent implementation is not in the sources). -/
structure AgentCore where
  agentId : String
  runtimeState : AgentRuntimeState
  stepCount : Nat
  lastSfpIndex : Nat
  lastBookmark : Option Bookmark
  cursor : Nat
  breakpoint : BreakpointState
deriving DecidableEq

/-- Modelled from the spec: `status()` snapshots the agent's fields into an
`AgentStatus`, reporting the runtime state and the breakpoint
simultaneously. -/
def agentStatus (a : AgentCore) : AgentStatus :=
  { agentId := a.agentId
    state := a.runtimeState
    stepCount := a.stepCount
    lastSfpIndex := a.lastSfpIndex
    lastBookmark := a.lastBookmark
    cursor := a.cursor
    breakpoint := a.breakpoint }

/-! ## Agent pool graceful shutdown and resume (claims C8, C9) -/

/-- Modelled from the spec (§4.10) and the shutdown tests
(`src/unnamed/part_010`): the observable behaviour of one live agent
during graceful shutdown — its runtime state, whether it finishes on its
own within the timeout when `WORKING`, and whether `interrupt()` succeeds
on it. -/
structure LiveAgent where
  id : String
  state : AgentRuntimeState
  finishesWithinTimeout : Bool
  interruptSucceeds : Bool
deriving DecidableEq

/-- The three buckets of the graceful-shutdown report:
`{completed, interrupted, failed}`. -/
structure ShutdownReport where
  completed : List String
  interrupted : List String
  failed : List String
deriving DecidableEq

/-- Modelled from the spec (§4.10 `gracefulShutdown`): the per-agent
outcome — a non-`WORKING` agent completes immediately; a `WORKING` agent is
waited on up to the timeout, then interrupted if `forceInterrupt` is set
(landing in `interrupted` when the interrupt succeeds and in `failed`
otherwise), and counted as failed when it neither finishes nor may be
interrupted. -/
inductive ShutdownOutcome
  | completedOk
  | interruptedOk
  | failedOut
deriving DecidableEq

/-- Modelled from the spec (§4.10): classify one live agent during
graceful shutdown. -/
def shutdownOutcome (forceInterrupt : Bool) (a : LiveAgent) : ShutdownOutcome :=
  if a.state = .WORKING then
    if a.finishesWithinTimeout then .completedOk
    else if forceInterrupt then
      if a.interruptSucceeds then .interruptedOk else .failedOut
    else .failedOut
  else .completedOk

/-- Modelled from the spec (§4.10, AgentPool — implementation not in the
sources): `gracefulShutdown` partitions the live agents into
`{completed, interrupted, failed}` and, when `saveRunningList` is set,
writes the currently-live agent ids to the `__pool_meta__` running-list
record (otherwise the record is left untouched).  Returns the report and
the new running-list record. -/
def gracefulShutdown (agents : List LiveAgent) (forceInterrupt saveRunningList : Bool)
    (meta : Option (List String)) : ShutdownReport × Option (List String) :=
  ({ completed :=
      (agents.filter (fun a => shutdownOutcome forceInterrupt a = .completedOk)).map (·.id)
     interrupted :=
      (agents.filter (fun a => shutdownOutcome forceInterrupt a = .interruptedOk)).map (·.id)
     failed :=
      (agents.filter (fun a => shutdownOutcome forceInterrupt a = .failedOut)).map (·.id) },
   if saveRunningList then some (agents.map (·.id)) else meta)

/-- Modelled from the spec (§4.10 `resumeFromShutdown`) and the shutdown
tests (`src/unnamed/part_010`): read the `__pool_meta__` running list,
resume each listed agent (`resumeOk` tells whether resuming a given id
succeeds), and clear the list — also when some resume fails.  Returns the
ids successfully resumed and the new running-list record. -/
def resumeFromShutdown (meta : Option (List String)) (resumeOk : String → Bool) :
    List String × Option (List String) :=
  match meta with
  | none => ([], none)
  | some ids => (ids.filter resumeOk, none)

/-! ## Tool call records and auto-seal (claim C2) -/

/-- The eight states of a `ToolCallRecord`, from §3 of the spec. -/
inductive ToolCallState
  | PENDING
  | APPROVAL_REQUIRED
  | APPROVED
  | EXECUTING
  | COMPLETED
  | FAILED
  | DENIED
  | SEALED
deriving DecidableEq

/-- Whether a tool-call state is terminal
(`COMPLETED`, `FAILED`, `DENIED`, `SEALED`). -/
def ToolCallState.terminal : ToolCallState → Bool
  | .COMPLETED => true
  | .FAILED => true
  | .DENIED => true
  | .SEALED => true
  | _ => false

/-- One entry of a record's append-only audit trail (§3). -/
structure AuditEntry where
  state : ToolCallState
  note : String
deriving DecidableEq

/-- A per-invocation tool-call record, from §3 of the spec (restricted to
the fields the claims are about). -/
structure ToolCallRecord where
  id : String
  name : String
  input : String
  state : ToolCallState
  error : Option String
  audit : List AuditEntry
deriving DecidableEq

/-- The resume strategy (`'crash' | 'manual'`) from the configuration
options in §6. -/
inductive ResumeStrategy
  | crash
  | manual
deriving DecidableEq

/-- Modelled from the spec (§7 auto-seal table): the synthetic
`tool_result.error` text per pre-terminal state. -/
def sealErrorText : ToolCallState → String
  | .PENDING => "auto-sealed: crash before execution"
  | .APPROVAL_REQUIRED => "auto-sealed: approval lost"
  | .APPROVED => "auto-sealed: approved but unexecuted"
  | .EXECUTING => "auto-sealed: execution interrupted — check for side effects"
  | _ => ""

/-- Modelled from the spec (§7 auto-seal, §4.6 crash-resume rules —
implementation not in the sources): seal one record on resume.  Terminal
records are untouched (`none`); an `APPROVAL_REQUIRED` record is sealed as
`DENIED` with reason "auto-sealed on crash" under strategy `crash` and
left pending under strategy `manual`; every other pre-terminal record is
marked `SEALED`.  A sealed record appends an audit entry and carries the
synthetic error text. -/
def autoSealRecord (strategy : ResumeStrategy) (r : ToolCallRecord) :
    Option ToolCallRecord :=
  if r.state.terminal then none
  else if r.state = .APPROVAL_REQUIRED then
    match strategy with
    | .crash => some { r with
        state := .DENIED
        error := some (sealErrorText .APPROVAL_REQUIRED)
        audit := r.audit ++ [⟨.DENIED, "auto-sealed on crash"⟩] }
    | .manual => none
  else
    some { r with
      state := .SEALED
      error := some (sealErrorText r.state)
      audit := r.audit ++ [⟨.SEALED, sealErrorText r.state⟩] }

/-- Progress-channel events, from the event reference
(`src/unnamed/part_001`), restricted to the tool-lifecycle events the
claims are about. -/
inductive ProgressEvent
  | toolStart (id : String)
  | toolEnd (id : String) (content : String) (is_error : Bool)
  | toolError (id : String) (error : String)
deriving DecidableEq

/-- Monitor-channel events, from the event reference
(`src/unnamed/part_001`), restricted to the events the claims are
about. -/
inductive MonitorEvent
  | state_changed (state : AgentRuntimeState)
  | tool_executed (id : String) (state : ToolCallState)
  | agent_resumed (strategy : ResumeStrategy) (sealed : List ToolCallRecord)
deriving DecidableEq

/-- The synthetic failed `tool_result` block a sealed record contributes to
the next user message (§7). -/
def sealedResultBlock (r : ToolCallRecord) : ContentBlock :=
  .tool_result r.id (r.error.getD "") true

/-- What auto-seal produces on resume: the updated record table, the list
of sealed records, their synthetic result blocks, and the emitted monitor
and progress events. -/
structure ResumeOutcome where
  records : List ToolCallRecord
  sealed : List ToolCallRecord
  resultBlocks : List ContentBlock
  monitorEvents : List MonitorEvent
  progressEvents : List ProgressEvent
deriving DecidableEq

/-- Modelled from the spec (§7): the auto-seal pass over the whole
tool-call-record table on resume.  Each sealed record contributes a failed
`tool_result` block; on completion one monitor
`agent_resumed {strategy, sealed}` is emitted plus, for each sealed call,
a progress `tool:end` with the synthetic result. -/
def resumeSeal (strategy : ResumeStrategy) (records : List ToolCallRecord) :
    ResumeOutcome :=
  let sealedRecs := records.filterMap (autoSealRecord strategy)
  { records := records.map (fun r => (autoSealRecord strategy r).getD r)
    sealed := sealedRecs
    resultBlocks := sealedRecs.map sealedResultBlock
    monitorEvents := [.agent_resumed strategy sealedRecs]
    progressEvents := sealedRecs.map (fun r => .toolEnd r.id (r.error.getD "") true) }

/-! ## Tool result ordering (claim C6) -/

/-- A model-emitted `tool_use` block (id, name, input JSON), from §3. -/
structure ToolUseBlock where
  id : String
  name : String
  input : String
deriving DecidableEq

/-- A tool outcome: `{ok: true, content}` or `{ok: false, error}` (§6,
Tool interface), with the text carried in `content`. -/
structure ToolOutcome where
  ok : Bool
  content : String
deriving DecidableEq

/-- Look up the outcome recorded for a call id in the completion list
(completion order is the list order). -/
def findOutcome : List (String × ToolOutcome) → String → Option ToolOutcome
  | [], _ => none
  | (k, v) :: rest, i => if k = i then some v else findOutcome rest i

/-- Modelled from the spec (§4.5 item 2): the `tool_result` block written
back for one originating `tool_use` block; a call with no recorded
completion yields a failed placeholder result. -/
def resultBlockFor (completions : List (String × ToolOutcome))
    (u : ToolUseBlock) : ContentBlock :=
  match findOutcome completions u.id with
  | some o => .tool_result u.id o.content (!o.ok)
  | none => .tool_result u.id "missing tool outcome" true

/-- Modelled from the spec (§4.5 item 2, ToolDispatcher — implementation
not in the sources): build the next user-role message, writing the
`tool_result` blocks in the order of the originating `tool_use` blocks,
independent of the completion order. -/
def buildToolResultMessage (uses : List ToolUseBlock)
    (completions : List (String × ToolOutcome)) : Message :=
  ⟨.user, uses.map (resultBlockFor completions)⟩

/-- The `tool_use_id`s of the `tool_result` blocks of a message, in
order. -/
def resultIds (m : Message) : List String :=
  m.content.filterMap (fun b =>
    match b with
    | .tool_result i _ _ => some i
    | _ => none)

/-! ## Tool-call lifecycle events (claim C7) -/

/-- How one gated tool call resolves: it proceeds to execution (directly
or after an approval), or it is denied (by policy or decision). -/
inductive GateResult
  | proceed
  | denied (reason : String)
deriving DecidableEq

/-- How an executed tool call ends: success with content, or one of the
raw failures. -/
inductive ExecOutcome
  | success (content : String)
  | failure (raw : RawFailure)
deriving DecidableEq

/-- Modelled from the spec (§4.5 item 6, ToolDispatcher — implementation
not in the sources): the terminal state and the progress / monitor events
emitted for one tool call.  A denied call reaches `DENIED` with a progress
`tool:error`; an executed call emits `tool:start` on entering `EXECUTING`
and then `tool:end` on `COMPLETED` or `tool:error` on `FAILED`; in every
case exactly one monitor `tool_executed` snapshot is emitted at the
terminal state. -/
def dispatchCall (callId : String) (gate : GateResult) (exec : ExecOutcome) :
    ToolCallState × List ProgressEvent × List MonitorEvent :=
  match gate with
  | .denied reason =>
      (.DENIED, [.toolError callId reason], [.tool_executed callId .DENIED])
  | .proceed =>
      match exec with
      | .success c =>
          (.COMPLETED, [.toolStart callId, .toolEnd callId c false],
            [.tool_executed callId .COMPLETED])
      | .failure f =>
          (.FAILED, [.toolStart callId, .toolError callId (failureMessage f)],
            [.tool_executed callId .FAILED])

/-- Whether a progress event is a `tool:start`. -/
def isToolStart : ProgressEvent → Bool
  | .toolStart _ => true
  | _ => false

/-- Whether a progress event is a terminal tool event
(`tool:end` or `tool:error`). -/
def isTerminalToolEvent : ProgressEvent → Bool
  | .toolEnd _ _ _ => true
  | .toolError _ _ => true
  | _ => false

/-- Whether a monitor event is a `tool_executed` snapshot. -/
def isToolExecuted : MonitorEvent → Bool
  | .tool_executed _ _ => true
  | _ => false

/-! ## Event bus: emit, cursors, replay (claims C4, C5) -/

/-- Modelled from the spec (§4.2 EventBus — implementation not in the
sources): per-agent bus state, the next cursor to assign and the persisted
event log. -/
structure BusState (α : Type) where
  nextCursor : Nat
  log : List (Envelope α)

/-- A fresh bus: next cursor 0, empty log. -/
def emptyBus (α : Type) : BusState α :=
  ⟨0, []⟩

/-- Modelled from the spec (§4.2): `emit(channel, event)` assigns the next
cursor, timestamps the bookmark with the current clock reading, and
appends the envelope to the Store log. -/
def emitEvent (s : BusState α) (ch : Channel) (ev : α) (now : Nat) : BusState α :=
  { nextCursor := s.nextCursor + 1
    log := s.log ++ [⟨s.nextCursor, ⟨s.nextCursor, now⟩, ch, ev⟩] }

/-- One emit request: the channel, the event payload, and the wall-clock
reading at emit time. -/
structure EmitReq (α : Type) where
  channel : Channel
  event : α
  now : Nat

/-- Run a sequence of emits against a bus state. -/
def runEmits (s : BusState α) : List (EmitReq α) → BusState α
  | [] => s
  | e :: rest => runEmits (emitEvent s e.channel e.event e.now) rest

/-- Modelled from the spec (§4.2 `subscribe` with `{since}`): the events
replayed from the Store — the persisted events on the subscribed channels
with cursor greater than the bookmark's seq, in log order. -/
def replayFrom (persisted : List (Envelope α)) (channels : List Channel)
    (since : Bookmark) : List (Envelope α) :=
  persisted.filter (fun e => e.channel ∈ channels ∧ since.seq < e.cursor)

/-- Modelled from the spec (§4.2): the replay watermark — the highest
replayed cursor, starting from the bookmark's seq. -/
def replayWatermark (persisted : List (Envelope α)) (channels : List Channel)
    (since : Bookmark) : Nat :=
  (replayFrom persisted channels since).foldl (fun w e => max w e.cursor) since.seq

/-- Modelled from the spec (§4.2): `subscribe(channels, {since})` first
replays the persisted events in order, then continues with the live
events, suppressing live events whose cursor is at or below the replay
watermark. -/
def subscribeSince (persisted live : List (Envelope α)) (channels : List Channel)
    (since : Bookmark) : List (Envelope α) :=
  replayFrom persisted channels since ++
    live.filter (fun e => e.channel ∈ channels ∧
      replayWatermark persisted channels since < e.cursor)

-- ===================== THEOREMS =====================

/-- C1: For every tool call, the permission decision consults
`denyTools`, then `allowTools`, then `requireApprovalTools`, then the mode
rule: a tool on `denyTools` is denied unconditionally; when `allowTools` is
present, any tool not on it is denied outright; a tool on
`requireApprovalTools` yields `ask` regardless of mode; otherwise mode
`auto` yields allow, mode `approval` yields `ask` for every tool, and mode
`readonly` allows tools flagged read-only and yields `ask` for all
others. -/
theorem permission_decision_order (cfg : PermissionConfig) (t : ToolMeta) :
    (t.name ∈ cfg.denyTools →
      decidePermission cfg t = .deny "tool is on denyTools") ∧
    (t.name ∉ cfg.denyTools → ∀ allowed, cfg.allowTools = some allowed →
      t.name ∉ allowed →
      decidePermission cfg t = .deny "tool is not on allowTools") ∧
    (t.name ∉ cfg.denyTools → allowListAdmits cfg.allowTools t.name = true →
      t.name ∈ cfg.requireApprovalTools →
      decidePermission cfg t = .ask) ∧
    (t.name ∉ cfg.denyTools → allowListAdmits cfg.allowTools t.name = true →
      t.name ∉ cfg.requireApprovalTools →
      (cfg.mode = .auto → decidePermission cfg t = .allow) ∧
      (cfg.mode = .approval → decidePermission cfg t = .ask) ∧
      (cfg.mode = .readonlyMode →
        decidePermission cfg t = if t.readOnly then .allow else .ask)) := by
  refine ⟨fun hd => ?_, fun hd allowed ha hn => ?_, fun hd ha hr => ?_,
    fun hd ha hr => ⟨fun hm => ?_, fun hm => ?_, fun hm => ?_⟩⟩ <;>
    simp only [decidePermission]
  · simp [hd]
  · have : allowListAdmits cfg.allowTools t.name = false := by
      simp [allowListAdmits, ha, hn]
    simp [hd, this]
  · simp [hd, ha, hr]
  · simp [hd, ha, hr, hm, modeRule]
  · simp [hd, ha, hr, hm, modeRule]
  · simp [hd, ha, hr, hm, modeRule]

/-- Witness for C1 at concrete inputs: in `approval` mode with no lists
set, a read-only tool still yields `ask`. -/
theorem permission_decision_order_witness :
    decidePermission ⟨.approval, none, [], []⟩ ⟨"fs_read", true⟩ = .ask := by
  have h := (permission_decision_order ⟨.approval, none, [], []⟩
    ⟨"fs_read", true⟩).2.2.2
  exact (h (by simp) (by rfl) (by simp)).2.1 rfl

/-- C3: Every tool failure is classified as exactly one of `validation`,
`runtime`, `logical`, `aborted`, `exception` and returned wrapped as a
payload with `ok: false`, the error text, the error type, `retryable`, and
the recommendations from the per-tool-name lookup table, where `retryable`
is false exactly for `validation` and `aborted`. -/
theorem failure_wrapping (table : String → ErrorType → List String)
    (toolName : String) (f : RawFailure) :
    (classify f = .validation ∨ classify f = .runtime ∨ classify f = .logical ∨
      classify f = .aborted ∨ classify f = .exception) ∧
    (handleFailure table toolName f).ok = false ∧
    (handleFailure table toolName f).error = failureMessage f ∧
    (handleFailure table toolName f).errorType = classify f ∧
    (handleFailure table toolName f).recommendations = table toolName (classify f) ∧
    (handleFailure table toolName f).retryable =
      (match classify f with
        | .validation => false
        | .aborted => false
        | .runtime => true
        | .logical => true
        | .exception => true) := by
  refine ⟨?_, rfl, rfl, rfl, rfl, ?_⟩
  · cases f <;> simp [classify]
  · cases f <;> rfl

/-- C10: The runtime state reported by `status()` and carried by monitor
`state_changed` events is a three-valued enum — `READY`, `WORKING`,
`PAUSED` — maintained separately from the eight-valued persisted
breakpoint, and every `status()` result reports both the runtime state and
the breakpoint simultaneously. -/
theorem runtime_state_three_valued :
    (∀ s : AgentRuntimeState, s = .READY ∨ s = .WORKING ∨ s = .PAUSED) ∧
    (AgentRuntimeState.READY ≠ .WORKING ∧ AgentRuntimeState.READY ≠ .PAUSED ∧
      AgentRuntimeState.WORKING ≠ .PAUSED) ∧
    (∀ b : BreakpointState,
      b = .READY ∨ b = .PRE_MODEL ∨ b = .STREAMING_MODEL ∨ b = .TOOL_PENDING ∨
      b = .AWAITING_APPROVAL ∨ b = .PRE_TOOL ∨ b = .TOOL_EXECUTING ∨ b = .POST_TOOL) ∧
    (∀ a : AgentCore, (agentStatus a).state = a.runtimeState ∧
      (agentStatus a).breakpoint = a.breakpoint) ∧
    (∀ (s : AgentRuntimeState) (b : BreakpointState),
      ∃ a : AgentCore, a.runtimeState = s ∧ a.breakpoint = b) := by
  refine ⟨fun s => ?_, ⟨by simp, by simp, by simp⟩, fun b => ?_,
    fun a => ⟨rfl, rfl⟩, fun s b => ⟨⟨"a", s, 0, 0, none, 0, b⟩, rfl, rfl⟩⟩
  · cases s <;> simp
  · cases b <;> simp

/-- C8: `gracefulShutdown` lets every non-`WORKING` live agent and every
`WORKING` agent that finishes within the timeout count as completed,
interrupts `WORKING` agents that outlast the timeout when `forceInterrupt`
is set, partitions the agent ids into `{completed, interrupted, failed}`,
and writes the currently-live agent ids to the `__pool_meta__` record iff
`saveRunningList` is true; a subsequent `resumeFromShutdown` reads that
running list, resumes each listed agent, and clears the list. -/
theorem graceful_shutdown_spec (agents : List LiveAgent)
    (force save : Bool) (meta : Option (List String)) :
    (∀ a ∈ agents,
      (a.state ≠ .WORKING →
        a.id ∈ (gracefulShutdown agents force save meta).1.completed) ∧
      (a.state = .WORKING → a.finishesWithinTimeout = true →
        a.id ∈ (gracefulShutdown agents force save meta).1.completed) ∧
      (a.state = .WORKING → a.finishesWithinTimeout = false → force = true →
        a.interruptSucceeds = true →
        a.id ∈ (gracefulShutdown agents force save meta).1.interrupted) ∧
      (a.state = .WORKING → a.finishesWithinTimeout = false →
        (force = false ∨ a.interruptSucceeds = false) →
        a.id ∈ (gracefulShutdown agents force save meta).1.failed)) ∧
    (save = true →
      (gracefulShutdown agents force save meta).2 = some (agents.map (·.id))) ∧
    (save = false → (gracefulShutdown agents force save meta).2 = meta) ∧
    (∀ resumeOk, resumeFromShutdown (gracefulShutdown agents force true meta).2 resumeOk =
      ((agents.map (·.id)).filter resumeOk, none)) := by
  refine ⟨fun a ha => ⟨fun h => ?_, fun h hf => ?_, fun h hf hforce hint => ?_,
      fun h hf hrest => ?_⟩, fun hs => ?_, fun hs => ?_, fun resumeOk => ?_⟩
  · refine List.mem_map_of_mem _ (List.mem_filter.mpr ⟨ha, ?_⟩)
    simp [shutdownOutcome, h]
  · refine List.mem_map_of_mem _ (List.mem_filter.mpr ⟨ha, ?_⟩)
    simp [shutdownOutcome, h, hf]
  · refine List.mem_map_of_mem _ (List.mem_filter.mpr ⟨ha, ?_⟩)
    simp [shutdownOutcome, h, hf, hforce, hint]
  · refine List.mem_map_of_mem _ (List.mem_filter.mpr ⟨ha, ?_⟩)
    rcases hrest with hforce | hint
    · simp [shutdownOutcome, h, hf, hforce]
    · cases hforce : force <;> simp [shutdownOutcome, h, hf, hforce, hint]
  · simp [gracefulShutdown, hs]
  · simp [gracefulShutdown, hs]
  · simp [gracefulShutdown, resumeFromShutdown]

/-- Witness for C8 at concrete inputs: a pool with one `READY` agent and
one stuck `WORKING` agent, `forceInterrupt` and `saveRunningList` set. -/
theorem graceful_shutdown_spec_witness :
    "idle" ∈ (gracefulShutdown
        [⟨"idle", .READY, true, true⟩, ⟨"stuck", .WORKING, false, true⟩]
        true true none).1.completed ∧
    "stuck" ∈ (gracefulShutdown
        [⟨"idle", .READY, true, true⟩, ⟨"stuck", .WORKING, false, true⟩]
        true true none).1.interrupted ∧
    (gracefulShutdown
        [⟨"idle", .READY, true, true⟩, ⟨"stuck", .WORKING, false, true⟩]
        true true none).2 = some ["idle", "stuck"] := by
  have h := graceful_shutdown_spec
    [⟨"idle", .READY, true, true⟩, ⟨"stuck", .WORKING, false, true⟩] true true none
  refine ⟨(h.1 ⟨"idle", .READY, true, true⟩ (by simp)).1 (by simp), ?_, h.2.1 rfl⟩
  exact (h.1 ⟨"stuck", .WORKING, false, true⟩ (by simp)).2.2.1 rfl rfl rfl rfl

/-- C9: `resumeFromShutdown` returns an empty list when no `__pool_meta__`
running list exists, and it clears the stored running list even when
resuming one of the listed agents fails, so a second call after any
invocation finds no running list and resumes nothing. -/
theorem resume_from_shutdown_clears (resumeOk more : String → Bool)
    (ids : List String) (meta : Option (List String)) :
    resumeFromShutdown none resumeOk = ([], none) ∧
    (resumeFromShutdown (some ids) resumeOk).2 = none ∧
    resumeFromShutdown (resumeFromShutdown meta resumeOk).2 more = ([], none) := by
  refine ⟨rfl, rfl, ?_⟩
  cases meta <;> rfl

theorem autoSealRecord_state {strategy : ResumeStrategy} {r x : ToolCallRecord}
    (h : autoSealRecord strategy r = some x) :
    x.state = .SEALED ∨ x.state = .DENIED := by
  unfold autoSealRecord at h
  split at h
  · simp at h
  · split at h
    · cases strategy with
      | crash =>
          injection h with h
          right
          rw [← h]
      | manual => simp at h
    · injection h with h
      left
      rw [← h]

/-- Auto-seal of one record in `PENDING`, `APPROVED` or `EXECUTING`:
marked `SEALED` with the synthetic error text and an appended audit
entry. -/
theorem autoSealRecord_pre (strategy : ResumeStrategy) {r : ToolCallRecord}
    (h : r.state = .PENDING ∨ r.state = .APPROVED ∨ r.state = .EXECUTING) :
    autoSealRecord strategy r = some { r with
      state := .SEALED
      error := some (sealErrorText r.state)
      audit := r.audit ++ [⟨.SEALED, sealErrorText r.state⟩] } := by
  rcases h with h | h | h <;> simp [autoSealRecord, ToolCallState.terminal, h]

/-- Auto-seal of an `APPROVAL_REQUIRED` record under strategy `crash`:
sealed as `DENIED` with reason "auto-sealed on crash". -/
theorem autoSealRecord_approval_crash {r : ToolCallRecord}
    (h : r.state = .APPROVAL_REQUIRED) :
    autoSealRecord .crash r = some { r with
      state := .DENIED
      error := some (sealErrorText .APPROVAL_REQUIRED)
      audit := r.audit ++ [⟨.DENIED, "auto-sealed on crash"⟩] } := by
  simp [autoSealRecord, ToolCallState.terminal, h]

/-- Auto-seal of an `APPROVAL_REQUIRED` record under strategy `manual`:
left pending. -/
theorem autoSealRecord_approval_manual {r : ToolCallRecord}
    (h : r.state = .APPROVAL_REQUIRED) :
    autoSealRecord .manual r = none := by
  simp [autoSealRecord, ToolCallState.terminal, h]

/-- C2: On resume after a crash, every `ToolCallRecord` in `PENDING`,
`APPROVED` or `EXECUTING` is marked `SEALED`, gains an audit entry, and
contributes a failed `tool_result` block; a record in `APPROVAL_REQUIRED`
is sealed as `DENIED` with reason "auto-sealed on crash" under strategy
`crash` and left pending under strategy `manual`; afterwards exactly one
monitor `agent_resumed` event carrying the strategy and the sealed records
is emitted, plus a progress `tool:end` with the synthetic result for each
sealed call. -/
theorem auto_seal_on_resume (strategy : ResumeStrategy)
    (records : List ToolCallRecord) (i : Nat) (hi : i < records.length) :
    (records[i].state = .PENDING ∨ records[i].state = .APPROVED ∨
        records[i].state = .EXECUTING →
      (resumeSeal strategy records).records[i]? =
        some { records[i] with
          state := .SEALED
          error := some (sealErrorText records[i].state)
          audit := records[i].audit ++
            [⟨.SEALED, sealErrorText records[i].state⟩] } ∧
      ContentBlock.tool_result records[i].id
          (sealErrorText records[i].state) true ∈
        (resumeSeal strategy records).resultBlocks) ∧
    (records[i].state = .APPROVAL_REQUIRED → strategy = .crash →
      (resumeSeal strategy records).records[i]? =
        some { records[i] with
          state := .DENIED
          error := some (sealErrorText .APPROVAL_REQUIRED)
          audit := records[i].audit ++
            [⟨.DENIED, "auto-sealed on crash"⟩] } ∧
      ContentBlock.tool_result records[i].id
          (sealErrorText .APPROVAL_REQUIRED) true ∈
        (resumeSeal strategy records).resultBlocks) ∧
    (records[i].state = .APPROVAL_REQUIRED → strategy = .manual →
      (resumeSeal strategy records).records[i]? = some records[i] ∧
      records[i] ∉ (resumeSeal strategy records).sealed) ∧
    ((resumeSeal strategy records).monitorEvents =
      [.agent_resumed strategy (resumeSeal strategy records).sealed]) ∧
    ((resumeSeal strategy records).progressEvents.length =
      (resumeSeal strategy records).sealed.length) ∧
    (∀ x ∈ (resumeSeal strategy records).sealed,
      ProgressEvent.toolEnd x.id (x.error.getD "") true ∈
        (resumeSeal strategy records).progressEvents) := by
  have hmemrec : records[i] ∈ records := List.getElem_mem hi
  refine ⟨fun hstate => ?_, fun hstate hstrat => ?_, fun hstate hstrat => ?_,
    rfl, by simp [resumeSeal], fun x hx => ?_⟩
  · have hseal := autoSealRecord_pre strategy hstate
    constructor
    · simp [resumeSeal, List.getElem?_map, List.getElem?_eq_getElem hi, hseal]
    · have hmem := List.mem_filterMap.mpr ⟨records[i], hmemrec, hseal⟩
      exact List.mem_map_of_mem sealedResultBlock hmem
  · subst hstrat
    have hseal := autoSealRecord_approval_crash hstate
    constructor
    · simp [resumeSeal, List.getElem?_map, List.getElem?_eq_getElem hi, hseal]
    · have hmem := List.mem_filterMap.mpr ⟨records[i], hmemrec, hseal⟩
      exact List.mem_map_of_mem sealedResultBlock hmem
  · subst hstrat
    have hseal := autoSealRecord_approval_manual hstate
    constructor
    · simp [resumeSeal, List.getElem?_map, List.getElem?_eq_getElem hi, hseal]
    · intro hmem
      have hmem' : records[i] ∈ records.filterMap (autoSealRecord .manual) := by
        simpa [resumeSeal] using hmem
      obtain ⟨a, _, ha⟩ := List.mem_filterMap.mp hmem'
      rcases autoSealRecord_state ha with h | h <;> (rw [hstate] at h; simp at h)
  · have hx' : x ∈ records.filterMap (autoSealRecord strategy) := by
      simpa [resumeSeal] using hx
    show ProgressEvent.toolEnd x.id (x.error.getD "") true ∈
      (records.filterMap (autoSealRecord strategy)).map
        (fun r => .toolEnd r.id (r.error.getD "") true)
    exact List.mem_map_of_mem _ hx'

/-- Witness for C2 at concrete inputs: one `EXECUTING` record and one
`APPROVAL_REQUIRED` record under strategy `crash`. -/
theorem auto_seal_on_resume_witness :
    (resumeSeal .crash [⟨"c3", "fs_write", "{}", .EXECUTING, none, []⟩]).records[0]? =
      some ⟨"c3", "fs_write", "{}", .SEALED, some (sealErrorText .EXECUTING),
        [⟨.SEALED, sealErrorText .EXECUTING⟩]⟩ ∧
    ContentBlock.tool_result "c3" (sealErrorText .EXECUTING) true ∈
      (resumeSeal .crash [⟨"c3", "fs_write", "{}", .EXECUTING, none, []⟩]).resultBlocks ∧
    (resumeSeal .crash [⟨"c4", "fs_write", "{}", .APPROVAL_REQUIRED, none, []⟩]).records[0]? =
      some ⟨"c4", "fs_write", "{}", .DENIED, some (sealErrorText .APPROVAL_REQUIRED),
        [⟨.DENIED, "auto-sealed on crash"⟩]⟩ := by
  have h1 := auto_seal_on_resume .crash
    [⟨"c3", "fs_write", "{}", .EXECUTING, none, []⟩] 0 (by decide)
  have h2 := auto_seal_on_resume .crash
    [⟨"c4", "fs_write", "{}", .APPROVAL_REQUIRED, none, []⟩] 0 (by decide)
  have h1' := h1.1 (Or.inr (Or.inr rfl))
  have h2' := h2.2.1 rfl rfl
  exact ⟨h1'.1, h1'.2, h2'.1⟩


theorem findOutcome_perm {l₁ l₂ : List (String × ToolOutcome)} (h : l₁.Perm l₂)
    (nd : (l₁.map Prod.fst).Nodup) (i : String) :
    findOutcome l₁ i = findOutcome l₂ i := by
  induction h with
  | nil => rfl
  | cons x h ih =>
      obtain ⟨x1, x2⟩ := x
      simp only [List.map_cons, List.nodup_cons] at nd
      simp only [findOutcome]
      rw [ih nd.2]
  | swap x y l =>
      obtain ⟨x1, x2⟩ := x
      obtain ⟨y1, y2⟩ := y
      simp only [List.map_cons, List.nodup_cons, List.mem_cons] at nd
      have hne : y1 ≠ x1 := fun e => nd.1 (Or.inl e)
      simp only [findOutcome]
      by_cases h1 : y1 = i <;> by_cases h2 : x1 = i
      · exact absurd (h1.trans h2.symm) hne
      · simp [h1, h2]
      · simp [h1, h2]
      · simp [h1, h2]
  | trans h₁ _ ih₁ ih₂ =>
      rw [ih₁ nd, ih₂ (((h₁.map Prod.fst).nodup_iff).mp nd)]

/-- C6: For every batch of `tool_use` blocks in one assistant message, the
`tool_result` blocks are written into the next user-role message in
exactly the order of the originating `tool_use` blocks, regardless of the
order in which the tool executions completed. -/
theorem tool_result_order (uses : List ToolUseBlock)
    (completions completions' : List (String × ToolOutcome)) :
    (buildToolResultMessage uses completions).role = .user ∧
    resultIds (buildToolResultMessage uses completions) = uses.map (·.id) ∧
    (completions.Perm completions' → (completions.map Prod.fst).Nodup →
      buildToolResultMessage uses completions =
        buildToolResultMessage uses completions') := by
  refine ⟨rfl, ?_, fun hp nd => ?_⟩
  · induction uses with
    | nil => rfl
    | cons u us ih =>
        simp only [buildToolResultMessage, resultIds, List.map_cons,
          List.filterMap_cons] at ih ⊢
        cases hfo : findOutcome completions u.id <;>
          simp_all [resultBlockFor, hfo]
  · unfold buildToolResultMessage
    congr 1
    refine List.map_congr_left fun u _ => ?_
    unfold resultBlockFor
    rw [findOutcome_perm hp nd]

/-- Witness for C6 at concrete inputs: two tool uses whose completions
arrive in reverse order still produce results in original order. -/
theorem tool_result_order_witness :
    resultIds (buildToolResultMessage
        [⟨"c1", "fs_read", "{}"⟩, ⟨"c2", "fs_write", "{}"⟩]
        [("c2", ⟨true, "w"⟩), ("c1", ⟨true, "r"⟩)]) = ["c1", "c2"] ∧
    buildToolResultMessage
        [⟨"c1", "fs_read", "{}"⟩, ⟨"c2", "fs_write", "{}"⟩]
        [("c2", ⟨true, "w"⟩), ("c1", ⟨true, "r"⟩)] =
      buildToolResultMessage
        [⟨"c1", "fs_read", "{}"⟩, ⟨"c2", "fs_write", "{}"⟩]
        [("c1", ⟨true, "r"⟩), ("c2", ⟨true, "w"⟩)] := by
  have h := tool_result_order
    [⟨"c1", "fs_read", "{}"⟩, ⟨"c2", "fs_write", "{}"⟩]
    [("c2", ⟨true, "w"⟩), ("c1", ⟨true, "r"⟩)]
    [("c1", ⟨true, "r"⟩), ("c2", ⟨true, "w"⟩)]
  exact ⟨h.2.1, h.2.2 (List.Perm.swap _ _ _) (by decide)⟩

/-- C7: For every tool call, a progress `tool:start` is emitted when the
call enters `EXECUTING` and is followed by exactly one terminal progress
event — `tool:end` when the call reaches `COMPLETED`, `tool:error` when it
reaches `FAILED` or `DENIED` — with `tool:start` always preceding the
terminal event; on the monitor channel exactly one `tool_executed`
snapshot is emitted at the call's terminal state. -/
theorem tool_lifecycle_events (callId : String) (gate : GateResult)
    (exec : ExecOutcome) :
    ((dispatchCall callId gate exec).1.terminal = true) ∧
    (((dispatchCall callId gate exec).2.1.filter isToolStart).length =
      if gate = .proceed then 1 else 0) ∧
    (((dispatchCall callId gate exec).2.1.filter isTerminalToolEvent).length = 1) ∧
    (∀ i j, ∀ hi : i < (dispatchCall callId gate exec).2.1.length,
      ∀ hj : j < (dispatchCall callId gate exec).2.1.length,
      isToolStart ((dispatchCall callId gate exec).2.1.get ⟨i, hi⟩) = true →
      isTerminalToolEvent ((dispatchCall callId gate exec).2.1.get ⟨j, hj⟩) = true →
      i < j) ∧
    ((dispatchCall callId gate exec).2.2 =
      [.tool_executed callId (dispatchCall callId gate exec).1]) ∧
    ((∃ c, ProgressEvent.toolEnd callId c false ∈ (dispatchCall callId gate exec).2.1) ↔
      (dispatchCall callId gate exec).1 = .COMPLETED) ∧
    ((∃ e, ProgressEvent.toolError callId e ∈ (dispatchCall callId gate exec).2.1) ↔
      ((dispatchCall callId gate exec).1 = .FAILED ∨
        (dispatchCall callId gate exec).1 = .DENIED)) := by
  cases gate with
  | denied reason =>
      refine ⟨rfl, by simp [dispatchCall, isToolStart], rfl, ?_, rfl, ?_, ?_⟩
      · intro i j hi hj hs _
        simp only [dispatchCall, List.length_cons, List.length_nil] at hi hj
        interval_cases i
        simp [dispatchCall, isToolStart] at hs
      · simp [dispatchCall]
      · simp [dispatchCall]
  | proceed =>
      cases exec with
      | success c =>
          refine ⟨rfl, by simp [dispatchCall, isToolStart], rfl, ?_, rfl, ?_, ?_⟩
          · intro i j hi hj hs ht
            simp only [dispatchCall, List.length_cons, List.length_nil] at hi hj
            interval_cases i <;> interval_cases j <;>
              simp_all [dispatchCall, isToolStart, isTerminalToolEvent]
          · simp [dispatchCall]
          · simp [dispatchCall]
      | failure f =>
          refine ⟨rfl, by simp [dispatchCall, isToolStart], rfl, ?_, rfl, ?_, ?_⟩
          · intro i j hi hj hs ht
            simp only [dispatchCall, List.length_cons, List.length_nil] at hi hj
            interval_cases i <;> interval_cases j <;>
              simp_all [dispatchCall, isToolStart, isTerminalToolEvent]
          · simp [dispatchCall]
          · simp [dispatchCall]

/-- Witness for C7 at concrete inputs: a successful call emits
`tool:start` at index 0 before its `tool:end` at index 1. -/
theorem tool_lifecycle_events_witness :
    (dispatchCall "c1" .proceed (.success "hello")).1.terminal = true ∧
    (0 : Nat) < 1 := by
  have h := tool_lifecycle_events "c1" .proceed (.success "hello")
  exact ⟨h.1, h.2.2.2.1 0 1 (by decide) (by decide) (by decide) (by decide)⟩

/-- Closed form of running a batch of emits: the log gains one envelope
per emit, with consecutive cursors starting at the bus's next cursor, and
the next cursor advances by the batch length. -/
theorem runEmits_closed_form {α : Type} (s : BusState α) (emits : List (EmitReq α)) :
    (runEmits s emits).log = s.log ++
      (emits.enumFrom s.nextCursor).map
        (fun p => ⟨p.1, ⟨p.1, p.2.now⟩, p.2.channel, p.2.event⟩) ∧
    (runEmits s emits).nextCursor = s.nextCursor + emits.length := by
  induction emits generalizing s with
  | nil => simp [runEmits]
  | cons e rest ih =>
      obtain ⟨ih1, ih2⟩ := ih (emitEvent s e.channel e.event e.now)
      constructor
      · show (runEmits (emitEvent s e.channel e.event e.now) rest).log = _
        rw [ih1]
        simp [emitEvent, List.enumFrom_cons]
      · show (runEmits (emitEvent s e.channel e.event e.now) rest).nextCursor = _
        rw [ih2]
        simp only [emitEvent, List.length_cons]
        omega

/-- Enumerating a pairwise-related list yields pairs with strictly
increasing indices whose values stay pairwise related. -/
theorem pairwise_enumFrom_of_pairwise {α : Type} {R : α → α → Prop} {l : List α}
    (h : l.Pairwise R) (n : Nat) :
    (l.enumFrom n).Pairwise (fun p q => p.1 < q.1 ∧ R p.2 q.2) := by
  induction l generalizing n with
  | nil => simp
  | cons x xs ih =>
      rcases List.pairwise_cons.mp h with ⟨hx, hxs⟩
      rw [List.enumFrom_cons]
      refine List.pairwise_cons.mpr ⟨fun p hp => ⟨?_, ?_⟩, ih hxs (n + 1)⟩
      · have := List.le_fst_of_mem_enumFrom hp
        omega
      · exact hx _ (List.snd_mem_of_mem_enumFrom hp)

/-- C4: For every agent, the cursors of the events it emits form a
strictly increasing sequence with no gaps at every point in execution, and
the bookmark `{seq, timestamp}` pairs of events within any one channel are
non-decreasing in both fields (the wall clock read at emit time being
monotone). -/
theorem event_cursor_invariant (α : Type) (emits : List (EmitReq α))
    (hclock : emits.Pairwise (fun a b => a.now ≤ b.now)) :
    ((runEmits (emptyBus α) emits).log.map Envelope.cursor =
      List.range emits.length) ∧
    ((runEmits (emptyBus α) emits).log.Pairwise
      (fun a b => a.cursor < b.cursor)) ∧
    (∀ ch : Channel,
      ((runEmits (emptyBus α) emits).log.filter
          (fun e => e.channel = ch)).Pairwise
        (fun a b => a.bookmark.seq ≤ b.bookmark.seq ∧
          a.bookmark.timestamp ≤ b.bookmark.timestamp)) := by
  obtain ⟨hlog, -⟩ := runEmits_closed_form (emptyBus α) emits
  have hpair : (runEmits (emptyBus α) emits).log.Pairwise
      (fun a b => a.cursor < b.cursor ∧ a.bookmark.seq ≤ b.bookmark.seq ∧
        a.bookmark.timestamp ≤ b.bookmark.timestamp) := by
    rw [hlog]
    simp only [emptyBus, List.nil_append]
    refine List.pairwise_map.mpr ?_
    have henum := pairwise_enumFrom_of_pairwise hclock 0
    exact henum.imp (fun hpq => ⟨hpq.1, Nat.le_of_lt hpq.1, hpq.2⟩)
  refine ⟨?_, hpair.imp (fun h => h.1), fun ch => ?_⟩
  · rw [hlog]
    simp only [emptyBus, List.nil_append, List.map_map]
    rw [show (Envelope.cursor ∘ fun p : Nat × EmitReq α =>
        (⟨p.1, ⟨p.1, p.2.now⟩, p.2.channel, p.2.event⟩ : Envelope α)) =
      Prod.fst from rfl]
    rw [List.enumFrom_map_fst]
    exact (List.range_eq_range' _).symm
  · exact (List.Pairwise.sublist (List.filter_sublist _) hpair).imp (fun h => h.2)

/-- Witness for C4 at concrete inputs: two emits with non-decreasing
clock readings. -/
theorem event_cursor_invariant_witness :
    (runEmits (emptyBus Nat) [⟨.progress, 10, 5⟩, ⟨.monitor, 11, 7⟩]).log.map
      Envelope.cursor = List.range 2 := by
  have h := event_cursor_invariant Nat [⟨.progress, 10, 5⟩, ⟨.monitor, 11, 7⟩]
    (by decide)
  exact h.1

/-- The fold computing the replay watermark is below `x` exactly when the
start value and every replayed cursor are. -/
theorem foldl_max_cursor_lt {α : Type} (l : List (Envelope α)) (s x : Nat) :
    (l.foldl (fun w e => max w e.cursor) s < x) ↔
      (s < x ∧ ∀ e ∈ l, e.cursor < x) := by
  induction l generalizing s with
  | nil => simp
  | cons e rest ih =>
      simp only [List.foldl_cons, List.mem_cons]
      rw [ih]
      constructor
      · rintro ⟨h1, h2⟩
        rcases Nat.max_lt.mp h1 with ⟨hs, he⟩
        refine ⟨hs, fun f hf => ?_⟩
        rcases hf with hfe | hf
        · rw [hfe]; exact he
        · exact h2 f hf
      · rintro ⟨hs, h2⟩
        exact ⟨Nat.max_lt.mpr ⟨hs, h2 e (Or.inl rfl)⟩,
          fun f hf => h2 f (Or.inr hf)⟩

/-- C5: `subscribe(channels, {since})` with a `since` bookmark first
replays the persisted events with cursor greater than the bookmark's seq
in strict cursor order, then continues with subsequent live events, with
no gaps and no duplicates: live events whose cursor is at or below the
replay watermark are suppressed.  (`all` is the strictly-ordered event
history; the persisted prefix has length `p` and the live feed starts at
index `q ≤ p`, so persisted and live overlap.) -/
theorem subscribe_replay_seam (α : Type) (all : List (Envelope α))
    (channels : List Channel) (since : Bookmark) (p q : Nat)
    (hq : q ≤ p) (hp : p ≤ all.length)
    (hSorted : all.Pairwise (fun a b => a.cursor < b.cursor)) :
    subscribeSince (all.take p) (all.drop q) channels since =
      all.filter (fun e => e.channel ∈ channels ∧ since.seq < e.cursor) ∧
    (subscribeSince (all.take p) (all.drop q) channels since).Pairwise
      (fun a b => a.cursor < b.cursor) := by
  have hsplit : ∀ a b, a ∈ all.take p → b ∈ all.drop p → a.cursor < b.cursor := by
    have h := hSorted
    rw [← List.take_append_drop p all] at h
    exact fun a b ha hb => (List.pairwise_append.mp h).2.2 a ha b hb
  have hreplay_sub : ∀ r ∈ replayFrom (all.take p) channels since, r ∈ all.take p :=
    fun r hr => List.mem_of_mem_filter hr
  have hwm : ∀ e ∈ all.drop p,
      (replayWatermark (all.take p) channels since < e.cursor ↔
        since.seq < e.cursor) := by
    intro e he
    unfold replayWatermark
    rw [foldl_max_cursor_lt]
    exact ⟨fun h => h.1,
      fun h => ⟨h, fun r hr => hsplit r e (hreplay_sub r hr) he⟩⟩
  have hmain : subscribeSince (all.take p) (all.drop q) channels since =
      all.filter (fun e => e.channel ∈ channels ∧ since.seq < e.cursor) := by
    have hdq : all.drop q = (all.take p).drop q ++ all.drop p := by
      conv_lhs => rw [← List.take_append_drop p all]
      rw [List.drop_append_of_le_length]
      rw [List.length_take]
      omega
    have hmid : ((all.take p).drop q).filter
        (fun e => e.channel ∈ channels ∧
          replayWatermark (all.take p) channels since < e.cursor) = [] := by
      rw [List.filter_eq_nil_iff]
      intro e he hQ
      simp only [decide_eq_true_eq] at hQ
      obtain ⟨hch, hcur⟩ := hQ
      have he' : e ∈ all.take p := List.mem_of_mem_drop he
      have hfold := (foldl_max_cursor_lt _ _ _).mp hcur
      have heP : e ∈ replayFrom (all.take p) channels since :=
        List.mem_filter.mpr ⟨he', by simp [hch, hfold.1]⟩
      exact absurd (hfold.2 e heP) (lt_irrefl _)
    have htail : (all.drop p).filter
        (fun e => e.channel ∈ channels ∧
          replayWatermark (all.take p) channels since < e.cursor) =
        (all.drop p).filter
          (fun e => e.channel ∈ channels ∧ since.seq < e.cursor) := by
      refine List.filter_congr (fun e he => ?_)
      exact decide_eq_decide.mpr (and_congr_right (fun _ => hwm e he))
    unfold subscribeSince replayFrom
    conv_rhs => rw [← List.take_append_drop p all]
    rw [List.filter_append]
    congr 1
    rw [hdq, List.filter_append, hmid, List.nil_append, htail]
  refine ⟨hmain, ?_⟩
  rw [hmain]
  exact List.Pairwise.sublist (List.filter_sublist _) hSorted

/-- Witness for C5 at concrete inputs: three persisted-or-live events,
persisted prefix of length 2, live feed starting at index 1, replay from
bookmark seq 1 on the progress channel. -/
theorem subscribe_replay_seam_witness :
    subscribeSince
        (List.take 2 [(⟨1, ⟨1, 1⟩, .progress, 0⟩ : Envelope Nat),
          ⟨2, ⟨2, 2⟩, .monitor, 0⟩, ⟨3, ⟨3, 3⟩, .progress, 0⟩])
        (List.drop 1 [(⟨1, ⟨1, 1⟩, .progress, 0⟩ : Envelope Nat),
          ⟨2, ⟨2, 2⟩, .monitor, 0⟩, ⟨3, ⟨3, 3⟩, .progress, 0⟩])
        [.progress] ⟨1, 1⟩ =
      List.filter
        (fun e => e.channel ∈ [Channel.progress] ∧ 1 < e.cursor)
        [(⟨1, ⟨1, 1⟩, .progress, 0⟩ : Envelope Nat),
          ⟨2, ⟨2, 2⟩, .monitor, 0⟩, ⟨3, ⟨3, 3⟩, .progress, 0⟩] := by
  have h := subscribe_replay_seam Nat
    [⟨1, ⟨1, 1⟩, .progress, 0⟩, ⟨2, ⟨2, 2⟩, .monitor, 0⟩, ⟨3, ⟨3, 3⟩, .progress, 0⟩]
    [.progress] ⟨1, 1⟩ 2 1 (by decide) (by decide) (by decide)
  exact h.1
